import Mathlib

/-!
Verification of the csharp_binder lowering engine (`src/builder.rs`).

The Rust source is shallowly embedded: `syn` AST nodes become inductive
types, the `CSharpBuilder`/`CSharpConfiguration` pair becomes explicit
state threaded through the emitters, and every fallible Rust function
returning `Result` becomes a Lean function into `Except Error`.
Source positions (`Span`) carried by Rust errors are dropped; only the
error kind and message are modelled.
-/

namespace CsBind

/-- Error taxonomy of the engine (`Error::UnsupportedError` /
`Error::UnknownType` from the crate). Spans are not modelled. -/
inductive Error where
  | unsupported (msg : String)
  | unknownType (msg : String)
deriving Repr, DecidableEq

/-- Embeds `TypeNameContainer` (builder.rs lines 11-15): a resolved C#
type name, the original Rust-syntax name, and resolved generic
arguments. Declared as an inductive because the structure is
recursive through `List`. -/
inductive TypeNameContainer where
  | mk (csharp_name : String) (rust_name : String) (generics : List TypeNameContainer)

/-- Field accessor for `TypeNameContainer.csharp_name`. -/
def TypeNameContainer.csharp_name : TypeNameContainer → String
  | .mk c _ _ => c

/-- Field accessor for `TypeNameContainer.rust_name`. -/
def TypeNameContainer.rust_name : TypeNameContainer → String
  | .mk _ r _ => r

/-- Field accessor for `TypeNameContainer.generics`. -/
def TypeNameContainer.generics : TypeNameContainer → List TypeNameContainer
  | .mk _ _ g => g

mutual
/-- Embeds `TypeNameContainer::stringify` (builder.rs lines 26-41):
renders the C# name, appending `<a, b, ...>` when generic arguments are
present. The Rust version returns `Result` only because `write!` on a
`String` is formally fallible; it never fails, so the embedding is pure. -/
def TypeNameContainer.stringify : TypeNameContainer → String
  | .mk cs _ gens =>
    cs ++ (if gens.isEmpty then "" else "<" ++ TypeNameContainer.stringifyArgs gens ++ ">")
termination_by structural t => t

/-- The comma-separated interior of `stringify`'s angle brackets
(the `for (index, generic)` loop of builder.rs lines 31-36). -/
def TypeNameContainer.stringifyArgs : List TypeNameContainer → String
  | [] => ""
  | [t] => TypeNameContainer.stringify t
  | t :: u :: rest =>
    TypeNameContainer.stringify t ++ ", " ++ TypeNameContainer.stringifyArgs (u :: rest)
termination_by structural l => l
end

mutual
/-- Embeds the subset of `syn::Type` consumed by `convert_type_name`
(builder.rs lines 590-656). Constructors other than `path`, `ptr` and
`reference` carry no payload because the engine rejects them without
inspecting their contents. -/
inductive RustType where
  | path (segments : List PathSeg)
  | ptr (elem : RustType)
  | reference (elem : RustType)
  | arrayTy
  | bareFnTy
  | groupTy
  | implTraitTy
  | inferTy
  | macTy
  | neverTy
  | parenTy
  | sliceTy
  | traitObjectTy
  | tupleTy
  | verbatimTy

/-- A `syn::PathSegment`: an identifier plus its path arguments. -/
inductive PathSeg where
  | mk (ident : String) (args : PathArgsM)

/-- `syn::PathArguments`. In `angle`, an entry `some t` is
`GenericArgument::Type(t)`; `none` is any non-type generic argument
(lifetime, const, binding, constraint). -/
inductive PathArgsM where
  | noneArgs
  | angle (args : List (Option RustType))
  | parenthesized
end

/-- Identifier of a `PathSeg`. -/
def PathSeg.ident : PathSeg → String
  | .mk i _ => i

/-- Arguments of a `PathSeg`. -/
def PathSeg.args : PathSeg → PathArgsM
  | .mk _ a => a

/-- `syn::Lit`, restricted to what the engine inspects. -/
inductive LitM where
  | str (s : String)
  | int (digits : String)
  | other
deriving Repr

/-- `syn::NestedMeta`: `metaPath` is `NestedMeta::Meta(Meta::Path p)`
(carrying the path's segments), `metaOther` any other nested meta,
`lit` a literal. -/
inductive NestedMetaItem where
  | metaPath (segments : List PathSeg)
  | metaOther
  | lit (l : LitM)

/-- A parsed attribute (`attr.parse_meta()` result, `syn::Meta`).
`list`/`nameValue` carry `path.get_ident()` pre-computed as the
`ident` component. Parse failures are out of scope: the engine
receives a fully parsed tree. -/
inductive MetaAttr where
  | path
  | list (ident : Option String) (nested : List NestedMetaItem)
  | nameValue (ident : Option String) (l : LitM)

/-- `syn::Path::get_ident`: the single identifier of a path that has
exactly one segment carrying no path arguments. -/
def path_get_ident : List PathSeg → Option String
  | [.mk ident .noneArgs] => some ident
  | _ => none

/-- Embeds `get_repr_attribute_value` (builder.rs lines 676-704):
for `#[repr(X)]` returns the path `X` (first nested meta, when it is a
`Meta::Path`); everything else yields `none`. -/
def get_repr_attribute_value : MetaAttr → Option (List PathSeg)
  | .path => none
  | .list ident nested =>
    match ident with
    | none => none
    | some i =>
      if i = "repr" then
        match nested with
        | [] => none
        | val :: _ =>
          match val with
          | .metaPath segs => some segs
          | .metaOther => none
          | .lit _ => none
      else none
  | .nameValue _ _ => none

/-- The identifier of an attribute's repr path, when both exist:
`get_repr_attribute_value` composed with `Path::get_ident` exactly as
the callers in `write_enum`/`write_struct` chain them. -/
def reprIdent (m : MetaAttr) : Option String :=
  match get_repr_attribute_value m with
  | none => none
  | some segs => path_get_ident segs

/-- Embeds `extract_outer_docs` (builder.rs lines 543-563): collects
the string literals of `#[doc = "..."]` name-value attributes in order. -/
def extract_outer_docs (attrs : List MetaAttr) : List String :=
  attrs.foldl
    (fun acc attr =>
      match attr with
      | .nameValue (some id) (.str v) => if id = "doc" then acc ++ [v] else acc
      | _ => acc)
    []

/-- A resolved managed identity in the type registry: managed
namespace, optional enclosing type, and the managed simple name
(fields `namespace`, `inside_type`, `real_type_name` of the
configuration's known-type record; `namespace` is a Lean keyword, so
the field is called `nspace`). -/
structure TypeIdentity where
  nspace : Option String
  inside_type : Option String
  real_type_name : String
deriving Repr, DecidableEq

/-- Modelled from the spec: the `CSharpConfiguration` type lives in the
crate's `lib.rs`, which is not part of the sources under review (only
an early revision without it is). Per the spec it carries the managed
language version, the optional out-parameter marker type name, the
generated-file banner and the shared type registry - "mapping from
native type name (string key, unique) to TypeIdentity", where "a later
registration for the same native name overwrites the prior one
(last-writer-wins)" and entries are never removed. The registry is a
front-inserted association list, so the newest registration for a key
is found first. -/
structure CSharpConfiguration where
  csharp_version : Nat
  out_type : Option String
  generated_warning : String
  known_types : List (String × TypeIdentity)
deriving Repr, DecidableEq

/-- Modelled from the spec: `CSharpConfiguration::get_known_type`
(absent from the sources under review) - looks a native type name up
in the registry. -/
def get_known_type (conf : CSharpConfiguration) (name : String) : Option TypeIdentity :=
  (conf.known_types.find? (fun p => p.1 == name)).map Prod.snd

/-- Modelled from the spec: `CSharpConfiguration::add_known_type`
(absent from the sources under review) - registers a managed identity
for a native name, overwriting any earlier registration. -/
def add_known_type (conf : CSharpConfiguration) (name : String)
    (nspace : Option String) (inside_type : Option String) (real_type_name : String) :
    CSharpConfiguration :=
  { conf with known_types := (name, ⟨nspace, inside_type, real_type_name⟩) :: conf.known_types }

/-- `syn::Pat`, restricted to what `write_function` distinguishes. -/
inductive PatM where
  | identPat (name : String)
  | otherPat

/-- `syn::FnArg`. -/
inductive FnArg where
  | receiver
  | typed (pat : PatM) (ty : RustType)

/-- `syn::ItemFn`, restricted to the components `write_function` reads:
attributes, the declared ABI (`sig.abi`, with its optional name
literal), the function identifier, the inputs, and the return type
(`none` is `ReturnType::Default`). -/
structure ItemFn where
  attrs : List MetaAttr
  abi : Option (Option String)
  ident : String
  inputs : List FnArg
  output : Option RustType

/-- `syn::Expr`, restricted to what the discriminant match in
`write_enum` distinguishes: an integer literal (carrying
`base10_digits`), any other literal, any other expression. -/
inductive DiscExpr where
  | litInt (digits : String)
  | litOther
  | otherExpr

/-- An enum variant: attributes, identifier, whether it carries fields
(`!variant.fields.is_empty()`), and its optional discriminant
expression. -/
structure VariantM where
  attrs : List MetaAttr
  ident : String
  has_fields : Bool
  discriminant : Option DiscExpr

/-- `syn::ItemEnum`, restricted to what `write_enum` reads. -/
structure ItemEnum where
  attrs : List MetaAttr
  ident : String
  variants : List VariantM

/-- `syn::GenericParam`. -/
inductive GenericParamK where
  | tyParam (ident : String)
  | lifetimeParam
  | constParam

/-- A struct field: attributes, optional identifier (tuple-struct
fields have none), and declared type. -/
structure FieldM where
  attrs : List MetaAttr
  ident : Option String
  ty : RustType

/-- `syn::ItemStruct`, restricted to what `write_struct` reads. -/
structure ItemStruct where
  attrs : List MetaAttr
  ident : String
  generic_params : List GenericParamK
  fields : List FieldM

/-- `syn::ItemType` (a `type Alias = Target;` item). -/
structure ItemType where
  ident : String
  ty : RustType

/-- `syn::Item`, the declaration variants dispatched by `write_token`
(builder.rs lines 103-186). Payload-free constructors are the item
kinds the engine ignores. -/
inductive Item where
  | constItem
  | enumItem (en : ItemEnum)
  | externCrate
  | fnItem (f : ItemFn)
  | foreignMod
  | implItem
  | macItem
  | mac2Item
  | modItem (content : Option (List Item))
  | staticItem
  | structItem (strct : ItemStruct)
  | traitItem
  | traitAliasItem
  | typeItem (t : ItemType)
  | unionItem
  | useItem
  | verbatimItem

/-- The per-pass builder (`CSharpBuilder` from the crate's `lib.rs`,
whose current revision is absent from the sources under review; its
fields are fixed by their uses in builder.rs and by the spec's
`EmissionContext`): the bound shared-library name, the parsed token
tree, the optional target namespace (`namespace` in the source; a Lean
keyword, so `nspace` here) and wrapper type name, the using directives
and the shared configuration. The `Rc<RefCell<_>>`-shared
configuration is modelled by threading an updated builder through the
emitters. -/
structure CSharpBuilder where
  dll_name : String
  tokens : List Item
  nspace : Option String
  type_name : Option String
  usings : List String
  conf : CSharpConfiguration

/-- Modelled from the spec: `CSharpBuilder::add_known_type` (absent
from the sources under review) - registers a native name under the
current pass's namespace and enclosing type: "Register the
enumeration's native name into the registry with managed identity
(currentNamespace, currentEnclosingType, nativeName)". -/
def CSharpBuilder.add_known_type (b : CSharpBuilder) (name real_type_name : String) :
    CSharpBuilder :=
  { b with conf := CsBind.add_known_type b.conf name b.nspace b.type_name real_type_name }

/-- The primitive arms of `convert_type_path`'s identifier match
(builder.rs lines 714-754), the spec's Primitive Type Table: `some`
when the identifier is one of the fixed primitive arms (with the
mapped result or the bool/str rejection), `none` when the identifier
falls through to the default arm. Only the C# version of the
configuration is consulted (for `usize`/`isize`). -/
def primitive_type_table (csharp_version : Nat) (ident : String) :
    Option (Except Error TypeNameContainer) :=
  if ident = "u8" then some (.ok (.mk "byte" "u8" []))
  else if ident = "u16" then some (.ok (.mk "ushort" "u16" []))
  else if ident = "u32" then some (.ok (.mk "uint" "u32" []))
  else if ident = "u64" then some (.ok (.mk "ulong" "u64" []))
  else if ident = "u128" then some (.ok (.mk "System.Numerics.BigInteger" "u128" []))
  else if ident = "usize" then
    if 9 ≤ csharp_version then some (.ok (.mk "nuint" "usize" []))
    else some (.ok (.mk "ulong" "usize" []))
  else if ident = "i8" then some (.ok (.mk "sbyte" "i8" []))
  else if ident = "i16" then some (.ok (.mk "short" "i16" []))
  else if ident = "i32" then some (.ok (.mk "int" "i32" []))
  else if ident = "i64" then some (.ok (.mk "long" "i64" []))
  else if ident = "i128" then some (.ok (.mk "System.Numerics.BigInteger" "i128" []))
  else if ident = "isize" then
    if 9 ≤ csharp_version then some (.ok (.mk "nint" "isize" []))
    else some (.ok (.mk "long" "isize" []))
  else if ident = "f32" then some (.ok (.mk "float" "f32" []))
  else if ident = "f64" then some (.ok (.mk "double" "f64" []))
  else if ident = "char" then some (.ok (.mk "char" "char" []))
  else if ident = "c_char" then some (.ok (.mk "char" "c_char" []))
  else if ident = "bool" then
    some (.error (.unsupported
      "Found a boolean type. Due to differing sizes on different operating systems this is not supported for extern C functions."))
  else if ident = "str" then
    some (.error (.unsupported
      "Found a str type. This is not supported, please use a char pointer instead."))
  else none

/-- Embeds `resolve_known_type_name` (builder.rs lines 807-867): looks
the identifier up in the registry and qualifies the found identity
against the current pass's namespace and wrapper type. The source's
`unwrap()` calls on `inside_type`/`namespace` are `Option.getD ""`
here; each sits on a branch where the option is provably `some`. -/
def resolve_known_type_name (b : CSharpBuilder) (v : String) :
    Except Error TypeNameContainer :=
  match get_known_type b.conf v with
  | none => .error (.unknownType ("Type with name \x27" ++ v ++ "\x27 was not found"))
  | some t =>
    if b.nspace = t.nspace ∧ (b.type_name = t.inside_type ∨ t.inside_type = none) then
      .ok (.mk t.real_type_name v [])
    else if b.nspace = t.nspace then
      .ok (.mk (t.inside_type.getD "" ++ "." ++ t.real_type_name) v [])
    else if t.inside_type = none then
      if t.nspace = none then
        .ok (.mk t.real_type_name v [])
      else
        .ok (.mk (t.nspace.getD "" ++ "." ++ t.real_type_name) v [])
    else if t.nspace = none then
      .ok (.mk (t.inside_type.getD "" ++ "." ++ t.real_type_name) v [])
    else
      .ok (.mk (t.nspace.getD "" ++ "." ++ t.inside_type.getD "" ++ "." ++ t.real_type_name) v [])

mutual
/-- Embeds `convert_type_name` (builder.rs lines 590-656): resolve a
type-tree node to its managed representation, rejecting the construct
kinds the engine does not support. -/
def convert_type_name (b : CSharpBuilder) : RustType → Except Error TypeNameContainer
  | .arrayTy => .error (.unsupported "Using rust arrays from ffi is not supported.")
  | .bareFnTy => .error (.unsupported "Using bare functions from ffi is not supported.")
  | .groupTy => .error (.unsupported "Using type group from ffi is not supported.")
  | .implTraitTy => .error (.unsupported "Using rust impl traits from ffi is not supported.")
  | .inferTy => .error (.unsupported
      "Using type infers is not supported. We can\x27t generate a binding if we do not know the type.")
  | .macTy => .error (.unsupported "Using rust macros from ffi is not supported.")
  | .neverTy => .error (.unsupported "Using rust never type from ffi is not supported.")
  | .parenTy => .error (.unsupported "Using rust parenthesis from ffi is not supported.")
  | .path segs => convert_type_path b segs
  | .ptr elem => do
    let underlying ← convert_type_name b elem
    pure (.mk "IntPtr" (underlying.rust_name ++ "*") [])
  | .reference elem => do
    let underlying ← convert_type_name b elem
    pure (.mk ("ref " ++ underlying.stringify) (underlying.rust_name ++ "&") [])
  | .sliceTy => .error (.unsupported "Using rust slices from ffi is not supported.")
  | .traitObjectTy => .error (.unsupported "Using rust traits from ffi is not supported.")
  | .tupleTy => .error (.unsupported "Using rust tuples from ffi is not supported.")
  | .verbatimTy => .error (.unsupported "Using rust verbatim from ffi is not supported.")
termination_by structural t => t

/-- Embeds `convert_type_path` (builder.rs lines 706-780): the match is
on `path.segments.last()`, so earlier segments are skipped; an empty
segment list is the source's `None` arm. -/
def convert_type_path (b : CSharpBuilder) : List PathSeg → Except Error TypeNameContainer
  | [] => .error (.unsupported "Types without a path are not supported")
  | [.mk ident args] => convert_last_segment b ident args
  | _ :: s :: rest => convert_type_path b (s :: rest)
termination_by structural l => l

/-- The `match v.ident.to_string().as_str()` arm table of
`convert_type_path` (builder.rs lines 712-772), written as the
equivalent decision chain over the last segment's identifier. The
primitive arms live in `primitive_type_table` below; the default arm
(out-parameter marker, then registry lookup) is here. -/
def convert_last_segment (b : CSharpBuilder) (ident : String) (args : PathArgsM) :
    Except Error TypeNameContainer :=
  match primitive_type_table b.conf.csharp_version ident with
  | some r => r
  | none =>
  if b.conf.out_type = some ident then
    -- `extract_out_parameter_type` (builder.rs lines 782-805), with its
    -- outer `match &v.arguments` inlined here so the mutual recursion is
    -- structural; `extract_out_parameter_type` below restates it.
    match args with
    | .angle gargs => out_from_last_arg b ident gargs
    | _ => .error (.unsupported "Out type requires the real type to be angle bracketed.")
  else do
    let base ← resolve_known_type_name b ident
    match args with
    | .angle gargs => do
      let gens ← convert_generic_args b gargs
      match base with
      | .mk cs rn g => pure (.mk cs rn (g ++ gens))
    | _ => pure base
termination_by structural args

/-- The `for generic in &generics.args` push loop of `convert_type_path`
(builder.rs lines 763-769): converts each `GenericArgument::Type`,
silently skipping non-type arguments. -/
def convert_generic_args (b : CSharpBuilder) :
    List (Option RustType) → Except Error (List TypeNameContainer)
  | [] => pure []
  | some t :: rest => do
    let c ← convert_type_name b t
    let cs ← convert_generic_args b rest
    pure (c :: cs)
  | none :: rest => convert_generic_args b rest
termination_by structural l => l

/-- The `a.args.last()` match of `extract_out_parameter_type`
(builder.rs lines 787-799): the last angle-bracketed argument must be
a `GenericArgument::Type`; it is resolved and wrapped as `out`. -/
def out_from_last_arg (b : CSharpBuilder) (ident : String) :
    List (Option RustType) → Except Error TypeNameContainer
  | [] => .error (.unsupported "Out type requires the real type to be angle bracketed.")
  | [some t] => do
    let inner_type ← convert_type_name b t
    pure (.mk ("out " ++ inner_type.stringify) ident [])
  | [none] => .error (.unsupported "Out type requires the real type to be angle bracketed.")
  | _ :: x :: rest => out_from_last_arg b ident (x :: rest)
termination_by structural l => l
end

/-- Embeds `extract_out_parameter_type` (builder.rs lines 782-805): the
marker type's arguments must be angle-bracketed and end in a type
argument, which is resolved and wrapped as an `out` parameter whose
rust-side name is the marker type's own identifier. The same decision
is inlined in `convert_last_segment`'s out-marker branch. -/
def extract_out_parameter_type (b : CSharpBuilder) (ident : String) (args : PathArgsM) :
    Except Error TypeNameContainer :=
  match args with
  | .angle gargs => out_from_last_arg b ident gargs
  | _ => .error (.unsupported "Out type requires the real type to be angle bracketed.")

/-- ASCII-uppercase the first character of a string. Mirrors the Rust
idiom `if let Some(r) = s.get_mut(0..1) { r.make_ascii_uppercase() }`:
the byte range `0..1` is a valid slice exactly when the first character
is ASCII, and `make_ascii_uppercase` only changes ASCII letters -
which is also all `Char.toUpper` changes. -/
def ascii_upper_first (s : String) : String :=
  match s.data with
  | [] => s
  | c :: cs => if c.toNat < 128 then String.mk (c.toUpper :: cs) else s

/-- ASCII-lowercase the first character of a string; see
`ascii_upper_first`. -/
def ascii_lower_first (s : String) : String :=
  match s.data with
  | [] => s
  | c :: cs => if c.toNat < 128 then String.mk (c.toLower :: cs) else s

/-- Splitting a character list at every occurrence of a separator
(Rust's `str::split(sep)`): empty pieces are kept, and the empty input
yields one empty piece. -/
def split_on_char (sep : Char) : List Char → List (List Char)
  | [] => [[]]
  | c :: rest =>
    let r := split_on_char sep rest
    if c = sep then [] :: r
    else
      match r with
      | [] => [[c]]
      | h :: t => (c :: h) :: t

/-- Rust's `str::trim`: whitespace stripped from both ends (modelled
with `Char.isWhitespace`, which covers the ASCII whitespace appearing
in doc comments). -/
def rust_trim (s : String) : String :=
  String.mk (((s.data.dropWhile Char.isWhitespace).reverse.dropWhile Char.isWhitespace).reverse)

/-- Embeds `convert_naming` (builder.rs lines 659-674): split on `_`,
uppercase each word's first letter, join, and for parameters lowercase
the resulting first letter. -/
def convert_naming (input : String) (is_parameter : Bool) : String :=
  let split := (split_on_char '_' input.data).map (fun w => ascii_upper_first (String.mk w))
  let f := String.join split
  if is_parameter then ascii_lower_first f else f

/-- Four spaces per indentation level (`for _ in 0..indents` writing
`"    "`); an `i32` indent that is zero or negative writes nothing. -/
def indent_str (indents : Int) : String :=
  String.join (List.replicate indents.toNat "    ")

/-- Embeds `write_line` (builder.rs lines 869-876): indentation, the
content, a newline. -/
def write_line (s : String) (content : String) (indents : Int) : String :=
  s ++ indent_str indents ++ content ++ "\n"

/-- Embeds `write_summary_from_outer_docs` (builder.rs lines 565-578). -/
def write_summary_from_outer_docs (s : String) (outer_docs : List String) (indents : Int) :
    String :=
  if outer_docs.isEmpty then s
  else
    let s := write_line s "/// <summary>" indents
    let s := outer_docs.foldl (fun acc d => write_line acc ("/// " ++ rust_trim d) indents) s
    write_line s "/// </summary>" indents

/-- Embeds `is_extern_c` (builder.rs lines 580-588). -/
def is_extern_c (f : ItemFn) : Bool :=
  match f.abi with
  | none => false
  | some abiName =>
    match abiName with
    | none => false
    | some name => name == "C"

/-- The parameter-collection loop of `write_function` (builder.rs lines
206-232): each parameter must be a plain identifier pattern; yields
`(converted name, stringified C# type, rust name)` triples in order. -/
def collect_parameters (b : CSharpBuilder) :
    List FnArg → Except Error (List (String × String × String))
  | [] => pure []
  | .receiver :: _ =>
    .error (.unsupported "Receiver parameters aren\x27t supported")
  | .typed pat ty :: rest =>
    match pat with
    | .identPat i => do
      let type_name ← convert_type_name b ty
      let restParams ← collect_parameters b rest
      pure ((convert_naming i true, type_name.stringify, type_name.rust_name) :: restParams)
    | .otherPat =>
      .error (.unsupported "Parameters that are not identity aren\x27t supported")

/-- The `match &fun.sig.output` of `write_function` (builder.rs lines
202-205): a missing return type is `void`. -/
def function_return_type (b : CSharpBuilder) :
    Option RustType → Except Error TypeNameContainer
  | none => pure (.mk "void" "void" [])
  | some t => convert_type_name b t

/-- Embeds `write_function` (builder.rs lines 192-282). Functions not
tagged `extern "C"` are skipped. The `if i != 0` comma loop over the
emitted parameter list is `String.intercalate ", "`. -/
def write_function (b : CSharpBuilder) (s : String) (indents : Int) (f : ItemFn) :
    Except Error String :=
  if !is_extern_c f then .ok s
  else do
    let return_type ← function_return_type b f.output
    let parameters ← collect_parameters b f.inputs
    let outer_docs := extract_outer_docs f.attrs
    let s := write_summary_from_outer_docs s outer_docs indents
    let s := parameters.foldl
      (fun acc p =>
        write_line acc ("/// <param name=\"" ++ p.1 ++ "\">" ++ p.2.2 ++ "</param>") indents) s
    let s := write_line s ("/// <returns>" ++ return_type.rust_name ++ "</returns>") indents
    let s := write_line s
      ("[DllImport(\"" ++ b.dll_name
        ++ "\", CallingConvention = CallingConvention.Cdecl, EntryPoint=\"" ++ f.ident ++ "\")]")
      indents
    let s := s ++ indent_str indents
    let s := s ++ "internal static extern " ++ return_type.stringify ++ " "
      ++ convert_naming f.ident false ++ "("
    let s := s ++ String.intercalate ", " (parameters.map (fun p => p.2.1 ++ " " ++ p.1))
    let s := s ++ ");\n" ++ "\n"
    pure s

/-- One iteration of `write_enum`'s attribute scan (builder.rs lines
291-312): a non-repr attribute, or a repr whose path has no single
identifier, leaves the size unchanged; identifier `C` is a hard error;
any other identifier replaces the size with the conversion of the repr
path. -/
def enum_repr_step (b : CSharpBuilder) (acc : Option TypeNameContainer) (attr : MetaAttr) :
    Except Error (Option TypeNameContainer) :=
  match get_repr_attribute_value attr with
  | none => pure acc
  | some val =>
    match path_get_ident val with
    | none => pure acc
    | some identifier =>
      if identifier = "C" then
        .error (.unsupported
          "The size of a repr[C] enum is not specifically defined. Please use repr[u*] to define an actual size")
      else do
        let c ← convert_type_path b val
        pure (some c)

/-- The attribute scan of `write_enum` (builder.rs lines 290-312):
folds `enum_repr_step` over the attributes, keeping the last
representation size seen. -/
def enum_size_option (b : CSharpBuilder) (attrs : List MetaAttr) :
    Except Error (Option TypeNameContainer) :=
  attrs.foldlM (enum_repr_step b) none

/-- The variant-emission loop body of `write_enum` (builder.rs lines
332-362): a variant with fields is an error; docs, the name, and the
discriminant when it is an integer literal. -/
def write_variant (s : String) (indents : Int) (v : VariantM) : Except Error String :=
  if v.has_fields then
    .error (.unsupported "Enum with values with fields is not supported")
  else
    let s := write_summary_from_outer_docs s (extract_outer_docs v.attrs) indents
    let s := s ++ indent_str indents
    let s := s ++ v.ident
    let s :=
      match v.discriminant with
      | some (.litInt digits) => s ++ " = " ++ digits
      | some _ => s
      | none => s
    .ok (s ++ ",\n")

/-- Embeds `write_enum` (builder.rs lines 284-369). An enum with no
recognised representation size is silently skipped; otherwise the enum
is emitted and its name registered under the current context. The
`*indents += 1 / -= 1` pair is threaded as `indents + 1`. -/
def write_enum (b : CSharpBuilder) (s : String) (indents : Int) (en : ItemEnum) :
    Except Error (String × CSharpBuilder) := do
  let size_option ← enum_size_option b en.attrs
  match size_option with
  | none => .ok (s, b)
  | some size =>
    let s := write_summary_from_outer_docs s (extract_outer_docs en.attrs) indents
    let s := write_line s ("public enum " ++ en.ident ++ " : " ++ size.csharp_name) indents
    let s := write_line s "\x7b" indents
    let s ← en.variants.foldlM (fun acc v => write_variant acc (indents + 1) v) s
    let s := write_line s "\x7d" indents
    let s := s ++ "\n"
    .ok (s, b.add_known_type en.ident en.ident)

/-- The contents of the `HashSet<String>` of declared type parameters
built by `write_struct` (builder.rs lines 410-419), as the
insertion-ordered list of distinct identifiers. -/
def struct_generics (params : List GenericParamK) : List String :=
  params.foldl
    (fun acc p =>
      match p with
      | .tyParam i => if i ∈ acc then acc else acc ++ [i]
      | .lifetimeParam => acc
      | .constParam => acc)
    []

/-- The `#[repr(C)]` scan of `write_struct` (builder.rs lines 377-391). -/
def struct_found_c_repr (attrs : List MetaAttr) : Bool :=
  attrs.any (fun attr =>
    match get_repr_attribute_value attr with
    | some val => path_get_ident val == some "C"
    | none => false)

/-- The `if let Type::Path(p) = &field.ty { p.path.get_ident() }` check
of the field loop (builder.rs lines 441-451): a field whose type is a
bare single-ident path naming one of the struct's own type parameters
is kept verbatim. -/
def field_generic_param (generics : List String) : RustType → Option String
  | .path [.mk i .noneArgs] => if i ∈ generics then some i else none
  | _ => none

/-- The field-emission loop of `write_struct` (builder.rs lines
440-493): accumulates output text plus the `(stringified type, C#
field name)` pairs later used for the constructor. Doc and remark
lines are written even for unnamed fields; only named fields emit a
member and join `converted_fields`. -/
def write_struct_fields (b : CSharpBuilder) (generics : List String) (indents : Int) :
    List FieldM → String → List (String × String) →
    Except Error (String × List (String × String))
  | [], s, cf => .ok (s, cf)
  | field :: rest, s, cf => do
    let t ←
      match field_generic_param generics field.ty with
      | none => convert_type_name b field.ty
      | some v => pure (TypeNameContainer.mk v v [])
    let s := write_summary_from_outer_docs s (extract_outer_docs field.attrs) indents
    let s := write_line s ("/// <remarks>" ++ t.rust_name ++ "</remarks>") indents
    match field.ident with
    | none => write_struct_fields b generics indents rest s cf
    | some field_identifier =>
      let csharp_field_name := convert_naming field_identifier false
      let s :=
        if 9 ≤ b.conf.csharp_version then
          write_line s
            ("public " ++ t.stringify ++ " " ++ csharp_field_name ++ " \x7b get; init; \x7d")
            indents
        else
          write_line s
            ("public readonly " ++ t.stringify ++ " " ++ csharp_field_name ++ ";") indents
      write_struct_fields b generics indents rest s (cf ++ [(t.stringify, csharp_field_name)])

/-- Embeds `write_struct` (builder.rs lines 371-541). Structs without
`#[repr(C)]` are skipped entirely. `order` supplies the iteration
order of the type-parameter `HashSet` when the `<...>` suffix is
rendered (builder.rs lines 421-432): Rust's `HashSet` iteration order
is unspecified, so it is an explicit parameter here; any function
returning a permutation of its input is a possible behaviour of the
source. Membership tests (`generics.contains`) use the set's contents
and do not depend on `order`. -/
def write_struct (order : List String → List String) (b : CSharpBuilder) (s : String)
    (indents : Int) (strct : ItemStruct) : Except Error (String × CSharpBuilder) :=
  if !struct_found_c_repr strct.attrs then .ok (s, b)
  else do
    let s := write_summary_from_outer_docs s (extract_outer_docs strct.attrs) indents
    let s := write_line s "[StructLayout(LayoutKind.Sequential, CharSet = CharSet.Unicode)]"
      indents
    let s := s ++ indent_str indents ++ "public struct " ++ strct.ident
    let generics := struct_generics strct.generic_params
    let s :=
      if generics.isEmpty then s
      else s ++ "<" ++ String.intercalate ", " (order generics) ++ ">"
    let s := s ++ "\n"
    let s := write_line s "\x7b" indents
    let (s, converted_fields) ← write_struct_fields b generics (indents + 1) strct.fields s []
    let s := s ++ "\n"
    let s := s ++ indent_str (indents + 1) ++ "public " ++ strct.ident ++ "("
    let s := s ++ String.intercalate ", "
      (converted_fields.map (fun cf => cf.1 ++ " " ++ ascii_lower_first cf.2))
    let s := s ++ ")\n"
    let s := write_line s "\x7b" (indents + 1)
    let s := converted_fields.foldl
      (fun acc cf => write_line acc (cf.2 ++ " = " ++ ascii_lower_first cf.2 ++ ";") (indents + 2))
      s
    let s := write_line s "\x7d" (indents + 1)
    let s := write_line s "\x7d" indents
    let s := s ++ "\n"
    .ok (s, b.add_known_type strct.ident strct.ident)

/-- Embeds `get_path_name` (builder.rs lines 188-190). -/
def get_path_name (segs : List PathSeg) : Option String :=
  segs.getLast?.map PathSeg.ident

/-- The generic-suffix rendering of the type-alias branch of
`write_token` (builder.rs lines 151-168): iterates the angle-bracketed
arguments with their enumeration index, writing `", "` before every
argument of nonzero index that is a `GenericArgument::Type`, followed
by the converted argument's `csharp_name` (not its full `stringify`). -/
def render_alias_generics (b : CSharpBuilder) :
    Nat → List (Option RustType) → Except Error String
  | _, [] => .ok ""
  | index, some t :: rest => do
    let c ← convert_type_name b t
    let restS ← render_alias_generics b (index + 1) rest
    .ok ((if index ≠ 0 then ", " else "") ++ c.csharp_name ++ restS)
  | index, none :: rest => render_alias_generics b (index + 1) rest

/-- The `Item::Type` branch of `write_token` (builder.rs lines
134-179): an alias to a registry-known path registers the alias name
under the referenced identity's namespace/enclosing type with the
simple name extended by the rendered generic suffix; anything else is
silently skipped. -/
def write_type_alias (b : CSharpBuilder) (typedef : ItemType) : Except Error CSharpBuilder :=
  match typedef.ty with
  | .path segs =>
    match get_path_name segs with
    | none => .ok b
    | some type_name =>
      match get_known_type b.conf type_name with
      | none => .ok b
      | some inner_type => do
        let real_type_name ←
          match (segs.getLast?.map PathSeg.args).getD .noneArgs with
          | .angle gargs => do
            let rendered ← render_alias_generics b 0 gargs
            pure (inner_type.real_type_name ++ "<" ++ rendered ++ ">")
          | _ => pure inner_type.real_type_name
        .ok { b with
          conf := add_known_type b.conf typedef.ident inner_type.nspace
            inner_type.inside_type real_type_name }
  | _ => .ok b

mutual
/-- Embeds `write_token` (builder.rs lines 103-186): dispatches one
declaration. Modules are flattened (their items processed in place);
items of unsupported kinds contribute nothing. The returned builder
carries the possibly-updated shared registry. -/
def write_token (order : List String → List String) (b : CSharpBuilder) (s : String)
    (indents : Int) : Item → Except Error (String × CSharpBuilder)
  | .enumItem en => write_enum b s indents en
  | .fnItem f => do
    let s ← write_function b s indents f
    .ok (s, b)
  | .modItem content =>
    match content with
    | none => .ok (s, b)
    | some items => write_tokens order b s indents items
  | .structItem strct => write_struct order b s indents strct
  | .typeItem typedef => do
    let b ← write_type_alias b typedef
    .ok (s, b)
  | .constItem => .ok (s, b)
  | .externCrate => .ok (s, b)
  | .foreignMod => .ok (s, b)
  | .implItem => .ok (s, b)
  | .macItem => .ok (s, b)
  | .mac2Item => .ok (s, b)
  | .staticItem => .ok (s, b)
  | .traitItem => .ok (s, b)
  | .traitAliasItem => .ok (s, b)
  | .unionItem => .ok (s, b)
  | .useItem => .ok (s, b)
  | .verbatimItem => .ok (s, b)
termination_by structural it => it

/-- Sequential processing of a declaration list (`for token in
&builder.tokens.items` of `build_csharp`, and the module-content loop
of `write_token`), threading the shared registry. -/
def write_tokens (order : List String → List String) (b : CSharpBuilder) (s : String)
    (indents : Int) : List Item → Except Error (String × CSharpBuilder)
  | [] => .ok (s, b)
  | item :: rest => do
    let (s, b) ← write_token order b s indents item
    write_tokens order b s indents rest
termination_by structural l => l
end

/-- Rust's `str::lines`: split on `\n`, drop a final empty piece
produced by a trailing newline, and strip one trailing `\r` from each
line. -/
def rust_lines (s : String) : List String :=
  let parts := split_on_char '\n' s.data
  let parts :=
    match parts.getLast? with
    | some [] => parts.dropLast
    | _ => parts
  parts.map (fun l => String.mk (if l.getLast? = some '\r' then l.dropLast else l))

/-- Embeds `build_csharp` (builder.rs lines 48-101): banner comment,
using directives, blank line, optional namespace and wrapper-class
braces, the lowered declarations, and the closing braces. Returns the
final text together with the builder carrying the updated shared
registry. -/
def build_csharp (order : List String → List String) (b : CSharpBuilder) :
    Except Error (String × CSharpBuilder) := do
  let s := ""
  let indent : Int := 0
  let s :=
    if b.conf.generated_warning.isEmpty then s
    else (rust_lines b.conf.generated_warning).foldl
      (fun acc line => write_line acc ("// " ++ line) indent) s
  let s := b.usings.foldl (fun acc u => write_line acc ("using " ++ u ++ ";") indent) s
  let s := s ++ "\n"
  let (s, indent) :=
    match b.nspace with
    | none => (s, indent)
    | some ns => (write_line (write_line s ("namespace " ++ ns) indent) "\x7b" indent, indent + 1)
  let (s, indent) :=
    match b.type_name with
    | none => (s, indent)
    | some t =>
      (write_line (write_line s ("internal static class " ++ t) indent) "\x7b" indent, indent + 1)
  let (s, b) ← write_tokens order b s indent b.tokens
  let (s, indent) :=
    match b.type_name with
    | none => (s, indent)
    | some _ => (write_line s "\x7d" (indent - 1), indent - 1)
  let (s, _) :=
    match b.nspace with
    | none => (s, indent)
    | some _ => (write_line s "\x7d" (indent - 1), indent - 1)
  .ok (s, b)

/-! ## The spec's qualification algorithm, and supporting lemmas -/

/-- The five-case qualification algorithm exactly as the spec words it,
for an identity `T = (ns_T, enc_T, name_T)` seen from a context
`C = (ns_C, enc_C)`: name unqualified when namespaces match and the
enclosing types agree or `enc_T` is absent; `enc_T.name` when only the
namespaces match; `name` or `ns_T.name` when `enc_T` is absent;
`enc_T.name` when `ns_T` is absent; `ns_T.enc_T.name` otherwise. -/
def qualified_name_spec (t : TypeIdentity) (ns_C enc_C : Option String) : String :=
  if t.nspace = ns_C ∧ (enc_C = t.inside_type ∨ t.inside_type = none) then
    t.real_type_name
  else if t.nspace = ns_C then
    t.inside_type.getD "" ++ "." ++ t.real_type_name
  else if t.inside_type = none then
    if t.nspace = none then t.real_type_name
    else t.nspace.getD "" ++ "." ++ t.real_type_name
  else if t.nspace = none then
    t.inside_type.getD "" ++ "." ++ t.real_type_name
  else
    t.nspace.getD "" ++ "." ++ t.inside_type.getD "" ++ "." ++ t.real_type_name

/-- `resolve_known_type_name` computes exactly the spec's
qualification algorithm on the identity found in the registry. -/
theorem resolve_known_type_name_eq (b : CSharpBuilder) (name : String) (t : TypeIdentity)
    (h : get_known_type b.conf name = some t) :
    resolve_known_type_name b name =
      .ok (.mk (qualified_name_spec t b.nspace b.type_name) name []) := by
  simp only [resolve_known_type_name, qualified_name_spec, h]
  by_cases h1 : b.nspace = t.nspace
  · by_cases h2 : b.type_name = t.inside_type ∨ t.inside_type = none
    · rw [if_pos ⟨h1, h2⟩, if_pos ⟨h1.symm, h2⟩]
    · rw [if_neg (fun hc => h2 hc.2), if_pos h1, if_neg (fun hc => h2 hc.2), if_pos h1.symm]
  · rw [if_neg (fun hc => h1 hc.1), if_neg h1,
      if_neg (show ¬(t.nspace = b.nspace ∧ (b.type_name = t.inside_type ∨ t.inside_type = none))
        from fun hc => h1 hc.1.symm),
      if_neg (show ¬t.nspace = b.nspace from fun hc => h1 hc.symm)]
    split_ifs <;> rfl

/-- Concatenation of a list of rendered text pieces. -/
def joinList : List String → String
  | [] => ""
  | x :: xs => x ++ joinList xs

/-- Binding a successful `Except` computation applies the
continuation. -/
theorem except_bind_ok {α β : Type} (a : α) (f : α → Except Error β) :
    (Except.ok a >>= f) = f a := rfl

/-- Binding a failed `Except` computation propagates the error. -/
theorem except_bind_error {α β : Type} (e : Error) (f : α → Except Error β) :
    ((Except.error e : Except Error α) >>= f) = .error e := rfl

/-- Every writer appends to its accumulator: a fold of `write_line`
over a list renders each element's line after the initial text. -/
theorem foldl_write_line_eq {α : Type} (g : α → String) (i : Int) (l : List α) :
    ∀ s : String,
      l.foldl (fun acc x => write_line acc (g x) i) s =
        s ++ joinList (l.map fun x => indent_str i ++ g x ++ "\n") := by
  induction l with
  | nil => intro s; simp [joinList]
  | cons x xs ih =>
    intro s
    rw [List.foldl_cons, ih, List.map_cons]
    simp [joinList, write_line, String.append_assoc]

/-- The text `write_summary_from_outer_docs` appends: nothing for no
docs, otherwise a `<summary>` block with one trimmed line per doc. -/
def summary_text (outer_docs : List String) (indents : Int) : String :=
  if outer_docs.isEmpty then ""
  else
    indent_str indents ++ "/// <summary>" ++ "\n"
      ++ joinList (outer_docs.map fun d => indent_str indents ++ ("/// " ++ rust_trim d) ++ "\n")
      ++ indent_str indents ++ "/// </summary>" ++ "\n"

/-- `write_summary_from_outer_docs` appends `summary_text`. -/
theorem write_summary_eq (s : String) (outer_docs : List String) (indents : Int) :
    write_summary_from_outer_docs s outer_docs indents = s ++ summary_text outer_docs indents := by
  unfold write_summary_from_outer_docs summary_text
  by_cases h : outer_docs.isEmpty
  · simp [h]
  · simp only [h, if_false, Bool.false_eq_true]
    rw [foldl_write_line_eq (fun d => "/// " ++ rust_trim d) indents]
    simp [write_line, String.append_assoc]

/-- A primitive-table hit decides `convert_last_segment` regardless of
the segment's path arguments. -/
theorem convert_last_segment_prim (b : CSharpBuilder) (ident : String) (args : PathArgsM)
    (r : Except Error TypeNameContainer)
    (h : primitive_type_table b.conf.csharp_version ident = some r) :
    convert_last_segment b ident args = r := by
  cases args <;> simp [convert_last_segment, h]

/-- The text a single fieldless variant contributes: its doc summary,
indentation, its name, ` = <digits>` exactly when the discriminant is
an integer literal, and a trailing comma. -/
theorem write_variant_eq (s : String) (i : Int) (v : VariantM) (h : v.has_fields = false) :
    write_variant s i v = .ok (s
      ++ (summary_text (extract_outer_docs v.attrs) i ++ indent_str i ++ v.ident
        ++ (match v.discriminant with
            | some (.litInt d) => " = " ++ d
            | some _ => ""
            | none => "") ++ ",\n")) := by
  unfold write_variant
  rw [h]
  simp only [Bool.false_eq_true, if_false, write_summary_eq]
  rcases v.discriminant with _ | d
  · simp [String.append_assoc]
  · cases d <;> simp [String.append_assoc]

/-- Folding `write_variant` over fieldless variants renders each
variant's text in order. -/
theorem write_variants_fold (i : Int) (vs : List VariantM) :
    ∀ s : String, (∀ v ∈ vs, v.has_fields = false) →
      vs.foldlM (fun acc v => write_variant acc i v) s =
        .ok (s ++ joinList (vs.map fun v =>
          summary_text (extract_outer_docs v.attrs) i ++ indent_str i ++ v.ident
            ++ (match v.discriminant with
                | some (.litInt d) => " = " ++ d
                | some _ => ""
                | none => "") ++ ",\n")) := by
  induction vs with
  | nil =>
    intro s _
    simp only [List.map_nil, joinList, String.append_empty, List.foldlM_nil]
    rfl
  | cons v vs ih =>
    intro s h
    rw [List.foldlM_cons, write_variant_eq s i v (h v (List.mem_cons_self v vs)),
      except_bind_ok, ih _ (fun u hu => h u (List.mem_cons_of_mem v hu))]
    simp [joinList, String.append_assoc]

/-- An attribute with no repr identifier leaves the scanned size
unchanged. -/
theorem enum_repr_step_skip (b : CSharpBuilder) (acc : Option TypeNameContainer)
    (a : MetaAttr) (h : reprIdent a = none) : enum_repr_step b acc a = .ok acc := by
  unfold reprIdent at h
  unfold enum_repr_step
  cases hg : get_repr_attribute_value a with
  | none => rfl
  | some val =>
    simp only [hg] at h
    simp only [h]
    rfl

/-- Scanning attributes none of which carries a repr identifier finds
no size. -/
theorem enum_size_fold_skip (b : CSharpBuilder) (attrs : List MetaAttr) :
    ∀ acc : Option TypeNameContainer, (∀ a ∈ attrs, reprIdent a = none) →
      attrs.foldlM (enum_repr_step b) acc = .ok acc := by
  induction attrs with
  | nil => intro acc _; rfl
  | cons a attrs ih =>
    intro acc h
    rw [List.foldlM_cons, enum_repr_step_skip b acc a (h a (List.mem_cons_self a attrs)),
      except_bind_ok, ih acc (fun u hu => h u (List.mem_cons_of_mem a hu))]

/-- The canonical width attribute `#[repr(w)]`. -/
def reprAttr (w : String) : MetaAttr :=
  .list (some "repr") [.metaPath [.mk w .noneArgs]]

/-- The repr identifier of `reprAttr w` is `w` itself. -/
theorem reprIdent_reprAttr (w : String) : reprIdent (reprAttr w) = some w := rfl

/-- The full output of `write_enum` when the attribute scan finds a
size and every variant is fieldless: docs, header with the size's C#
name, brace, the variants in order, closing brace, blank line; and the
enum's native name is registered under the current context. -/
theorem write_enum_eq (b : CSharpBuilder) (s : String) (i : Int) (en : ItemEnum)
    (sz : TypeNameContainer) (hsz : enum_size_option b en.attrs = .ok (some sz))
    (hf : ∀ v ∈ en.variants, v.has_fields = false) :
    write_enum b s i en = .ok (s
      ++ summary_text (extract_outer_docs en.attrs) i
      ++ indent_str i ++ "public enum " ++ en.ident ++ " : " ++ sz.csharp_name ++ "\n"
      ++ indent_str i ++ "\x7b\n"
      ++ joinList (en.variants.map fun v =>
          summary_text (extract_outer_docs v.attrs) (i + 1) ++ indent_str (i + 1) ++ v.ident
            ++ (match v.discriminant with
                | some (.litInt d) => " = " ++ d
                | some _ => ""
                | none => "") ++ ",\n")
      ++ indent_str i ++ "\x7d\n" ++ "\n",
      b.add_known_type en.ident en.ident) := by
  unfold write_enum
  rw [hsz, except_bind_ok, write_summary_eq]
  simp only [write_line]
  rw [write_variants_fold (i + 1) en.variants _ hf]
  simp only [except_bind_ok]
  simp [String.append_assoc]

/-! ## Claims -/

/-- C1: for every identity found in the registry, resolving the type
name emits exactly the spec's five-case qualification of that identity
against the pass's namespace and enclosing type (checks applied in the
spec's order), and the result is the same for any pass with the same
context whose registry maps the name to the same identity - in
particular whether the identity was registered earlier in the same
pass or by a prior pass sharing the registry. -/
theorem C1_registry_qualification (b : CSharpBuilder) (name : String) (t : TypeIdentity)
    (h : get_known_type b.conf name = some t) :
    resolve_known_type_name b name =
      .ok (.mk (qualified_name_spec t b.nspace b.type_name) name []) ∧
    ∀ b' : CSharpBuilder, b'.nspace = b.nspace → b'.type_name = b.type_name →
      get_known_type b'.conf name = some t →
      resolve_known_type_name b' name = resolve_known_type_name b name := by
  refine ⟨resolve_known_type_name_eq b name t h, fun b' h1 h2 h3 => ?_⟩
  rw [resolve_known_type_name_eq b' name t h3, resolve_known_type_name_eq b name t h, h1, h2]

/-- Identity used by concrete witnesses: `KnownEnum` registered by a
prior pass under namespace `DiffNameSpace.Test` inside wrapper type
`DiffType` (mirrors the repo's cross-pass test). -/
def witnessIdentity : TypeIdentity :=
  { nspace := some "DiffNameSpace.Test", inside_type := some "DiffType",
    real_type_name := "KnownEnum" }

/-- A registry holding only `witnessIdentity`. -/
def witnessConf : CSharpConfiguration :=
  { csharp_version := 9, out_type := none, generated_warning := "",
    known_types := [("KnownEnum", witnessIdentity)] }

/-- A pass over that registry targeting namespace `foo`, wrapper `bar`. -/
def witnessBuilder : CSharpBuilder :=
  { dll_name := "foo", tokens := [], nspace := some "foo", type_name := some "bar",
    usings := [], conf := witnessConf }

/-- Witness for C1: the cross-namespace, cross-wrapper case emits the
fully qualified `ns_T.enc_T.name_T`. -/
theorem C1_registry_qualification_witness :
    resolve_known_type_name witnessBuilder "KnownEnum" =
      .ok (.mk "DiffNameSpace.Test.DiffType.KnownEnum" "KnownEnum" []) := by
  have h := (C1_registry_qualification witnessBuilder "KnownEnum" witnessIdentity rfl).1
  exact h.trans (by rfl)

/-- C2: the primitive table. Every single-segment primitive resolves,
for every builder (hence every context, registry state and
out-parameter configuration) and every argument shape, to the fixed
managed mapping with the native name as the remark; `usize`/`isize`
depend only on whether the configured C# version is at least 9; `bool`
and `str` always fail with an unsupported-construct error. -/
theorem C2_primitive_table (b : CSharpBuilder) (args : PathArgsM) :
    convert_type_path b [.mk "u8" args] = .ok (.mk "byte" "u8" []) ∧
    convert_type_path b [.mk "u16" args] = .ok (.mk "ushort" "u16" []) ∧
    convert_type_path b [.mk "u32" args] = .ok (.mk "uint" "u32" []) ∧
    convert_type_path b [.mk "u64" args] = .ok (.mk "ulong" "u64" []) ∧
    convert_type_path b [.mk "u128" args] = .ok (.mk "System.Numerics.BigInteger" "u128" []) ∧
    convert_type_path b [.mk "usize" args] =
      .ok (.mk (if 9 ≤ b.conf.csharp_version then "nuint" else "ulong") "usize" []) ∧
    convert_type_path b [.mk "i8" args] = .ok (.mk "sbyte" "i8" []) ∧
    convert_type_path b [.mk "i16" args] = .ok (.mk "short" "i16" []) ∧
    convert_type_path b [.mk "i32" args] = .ok (.mk "int" "i32" []) ∧
    convert_type_path b [.mk "i64" args] = .ok (.mk "long" "i64" []) ∧
    convert_type_path b [.mk "i128" args] = .ok (.mk "System.Numerics.BigInteger" "i128" []) ∧
    convert_type_path b [.mk "isize" args] =
      .ok (.mk (if 9 ≤ b.conf.csharp_version then "nint" else "long") "isize" []) ∧
    convert_type_path b [.mk "f32" args] = .ok (.mk "float" "f32" []) ∧
    convert_type_path b [.mk "f64" args] = .ok (.mk "double" "f64" []) ∧
    convert_type_path b [.mk "char" args] = .ok (.mk "char" "char" []) ∧
    convert_type_path b [.mk "bool" args] = .error (.unsupported
      "Found a boolean type. Due to differing sizes on different operating systems this is not supported for extern C functions.") ∧
    convert_type_path b [.mk "str" args] = .error (.unsupported
      "Found a str type. This is not supported, please use a char pointer instead.") := by
  refine ⟨?_, ?_, ?_, ?_, ?_, ?_, ?_, ?_, ?_, ?_, ?_, ?_, ?_, ?_, ?_, ?_, ?_⟩ <;>
  · simp only [convert_type_path]
    by_cases h : 9 ≤ b.conf.csharp_version <;>
      exact convert_last_segment_prim b _ args _ (by simp [primitive_type_table, h])

/-- A primitive-table miss plus an out-marker match sends
`convert_last_segment` to `extract_out_parameter_type`, for any
argument shape. -/
theorem convert_last_segment_out (b : CSharpBuilder) (ident : String)
    (h_prim : primitive_type_table b.conf.csharp_version ident = none)
    (h_out : b.conf.out_type = some ident) (args : PathArgsM) :
    convert_last_segment b ident args = extract_out_parameter_type b ident args := by
  cases args <;> simp [convert_last_segment, extract_out_parameter_type, h_prim, h_out]

/-- Configuration with the out-parameter marker type set to `Out`. -/
def outConf : CSharpConfiguration :=
  { csharp_version := 9, out_type := some "Out", generated_warning := "", known_types := [] }

/-- A pass using `outConf`. -/
def outBuilder : CSharpBuilder :=
  { dll_name := "foo", tokens := [], nspace := some "foo", type_name := some "bar",
    usings := [], conf := outConf }

/-- Counterexample for C3 as stated: resolution does NOT require
exactly one generic type argument - the marker used with two generic
type arguments (`Out<u8, u16>`) succeeds, resolving the last argument,
instead of failing the "exactly one" requirement. -/
theorem C3_counterexample :
    convert_type_path outBuilder
      [.mk "Out" (.angle [some (.path [.mk "u8" .noneArgs]),
        some (.path [.mk "u16" .noneArgs])])] =
      .ok (.mk "out ushort" "Out" []) := by rfl

/-- `a.args.last()`: the scan of `out_from_last_arg` only ever
inspects the last element of the angle-bracketed argument list. -/
theorem out_from_last_arg_append (b : CSharpBuilder) (ident : String) (x : Option RustType)
    (gargs : List (Option RustType)) :
    out_from_last_arg b ident (gargs ++ [x]) = out_from_last_arg b ident [x] := by
  induction gargs with
  | nil => rfl
  | cons y ys ih =>
    cases ys with
    | nil =>
      simp only [List.cons_append, List.nil_append]
      cases y <;> cases x <;> simp only [out_from_last_arg]
    | cons z zs =>
      simp only [List.cons_append] at ih ⊢
      cases y <;> simp only [out_from_last_arg] <;> exact ih

/-- C3 (amended): when a type node's name equals the configured
out-parameter marker (and is not a primitive arm), resolution requires
an angle-bracketed argument list whose LAST argument is a generic type
argument - in particular a single generic type argument - resolves
that last type argument, and wraps it as a by-reference `out`
parameter whose remark is the marker's own native name. Using the
marker with a last angle-bracketed argument that is not a type
argument, with an empty angle-bracketed list, or without an
angle-bracketed argument list at all, fails with an
unsupported-construct error. -/
theorem C3_out_parameter_amended (b : CSharpBuilder) (name : String)
    (h_out : b.conf.out_type = some name)
    (h_prim : primitive_type_table b.conf.csharp_version name = none) :
    (∀ (gargs : List (Option RustType)) (t : RustType) (inner : TypeNameContainer),
      convert_type_name b t = .ok inner →
      convert_type_path b [.mk name (.angle (gargs ++ [some t]))] =
        .ok (.mk ("out " ++ inner.stringify) name [])) ∧
    (∀ gargs : List (Option RustType),
      convert_type_path b [.mk name (.angle (gargs ++ [none]))] =
        .error (.unsupported "Out type requires the real type to be angle bracketed.")) ∧
    convert_type_path b [.mk name (.angle [])] =
      .error (.unsupported "Out type requires the real type to be angle bracketed.") ∧
    convert_type_path b [.mk name .noneArgs] =
      .error (.unsupported "Out type requires the real type to be angle bracketed.") := by
  refine ⟨?_, ?_, ?_, ?_⟩
  · intro gargs t inner h
    simp only [convert_type_path, convert_last_segment_out b name h_prim h_out,
      extract_out_parameter_type, out_from_last_arg_append, out_from_last_arg, h]
    rfl
  · intro gargs
    simp only [convert_type_path, convert_last_segment_out b name h_prim h_out,
      extract_out_parameter_type, out_from_last_arg_append, out_from_last_arg]
  · simp only [convert_type_path, convert_last_segment_out b name h_prim h_out,
      extract_out_parameter_type, out_from_last_arg]
  · simp only [convert_type_path, convert_last_segment_out b name h_prim h_out,
      extract_out_parameter_type]

/-- Witness for C3 (amended): `Out<u8>` becomes `out byte` with remark
`Out`; `Out<u8, u16>` resolves the last argument `u16`; a last
argument that is not a type (`Out<u8, 'a>`), the empty list `Out<>`,
and bare `Out` all fail. -/
theorem C3_out_parameter_amended_witness :
    convert_type_path outBuilder [.mk "Out" (.angle [some (.path [.mk "u8" .noneArgs])])] =
      .ok (.mk "out byte" "Out" []) ∧
    convert_type_path outBuilder
        [.mk "Out" (.angle [some (.path [.mk "u8" .noneArgs]),
          some (.path [.mk "u16" .noneArgs])])] =
      .ok (.mk "out ushort" "Out" []) ∧
    convert_type_path outBuilder
        [.mk "Out" (.angle [some (.path [.mk "u8" .noneArgs]), none])] =
      .error (.unsupported "Out type requires the real type to be angle bracketed.") ∧
    convert_type_path outBuilder [.mk "Out" (.angle [])] =
      .error (.unsupported "Out type requires the real type to be angle bracketed.") ∧
    convert_type_path outBuilder [.mk "Out" .noneArgs] =
      .error (.unsupported "Out type requires the real type to be angle bracketed.") := by
  have h := C3_out_parameter_amended outBuilder "Out" rfl rfl
  refine ⟨(h.1 [] (.path [.mk "u8" .noneArgs]) (.mk "byte" "u8" []) rfl).trans (by rfl),
    (h.1 [some (.path [.mk "u8" .noneArgs])] (.path [.mk "u16" .noneArgs])
      (.mk "ushort" "u16" []) rfl).trans (by rfl),
    h.2.1 [some (.path [.mk "u8" .noneArgs])], h.2.2.1, h.2.2.2⟩

/-- A width attribute `#[repr(w)]` with `w ≠ C` replaces the scanned
size with the conversion of the repr path. -/
theorem enum_repr_step_width (b : CSharpBuilder) (acc : Option TypeNameContainer)
    (w : String) (sz : TypeNameContainer) (hw : w ≠ "C")
    (hconv : convert_type_path b [.mk w .noneArgs] = .ok sz) :
    enum_repr_step b acc (reprAttr w) = .ok (some sz) := by
  unfold enum_repr_step reprAttr
  simp only [get_repr_attribute_value, path_get_ident, String.reduceEq, reduceIte]
  rw [if_neg hw, hconv, except_bind_ok]
  rfl

/-- C4: lowering an enumeration carrying the fixed-width marker
`#[repr(u8)]` emits, for each fieldless variant, ` = <digits>` exactly
when the variant has an explicit integer-literal discriminant
(preserving the literal digits verbatim) and no assignment at all
otherwise, so that undiscriminated variants fall through to the
managed language's sequential auto-increment (starting at 0). -/
theorem C4_enum_discriminants (b : CSharpBuilder) (s : String) (i : Int) (ident : String)
    (variants : List VariantM) (hf : ∀ v ∈ variants, v.has_fields = false) :
    write_enum b s i ⟨[reprAttr "u8"], ident, variants⟩ = .ok (s
      ++ indent_str i ++ "public enum " ++ ident ++ " : " ++ "byte" ++ "\n"
      ++ indent_str i ++ "\x7b\n"
      ++ joinList (variants.map fun v =>
          summary_text (extract_outer_docs v.attrs) (i + 1) ++ indent_str (i + 1) ++ v.ident
            ++ (match v.discriminant with
                | some (.litInt d) => " = " ++ d
                | some _ => ""
                | none => "") ++ ",\n")
      ++ indent_str i ++ "\x7d\n" ++ "\n",
      b.add_known_type ident ident) := by
  have h := write_enum_eq b s i ⟨[reprAttr "u8"], ident, variants⟩ (.mk "byte" "u8" []) rfl hf
  simpa [summary_text, TypeNameContainer.csharp_name, String.append_assoc] using h

/-- Witness for C4: `One, Two, Three` without discriminants emits no
assignments (managed values 0, 1, 2 by auto-increment); explicit
`One = 1, Two = 2, Five = 5` is preserved verbatim. -/
theorem C4_enum_discriminants_witness :
    write_enum witnessBuilder "" 0
        ⟨[reprAttr "u8"], "Foo",
          [⟨[], "One", false, none⟩, ⟨[], "Two", false, none⟩, ⟨[], "Three", false, none⟩]⟩ =
      .ok ("public enum Foo : byte\n\x7b\n    One,\n    Two,\n    Three,\n\x7d\n\n",
        witnessBuilder.add_known_type "Foo" "Foo") ∧
    write_enum witnessBuilder "" 0
        ⟨[reprAttr "u8"], "Foo",
          [⟨[], "One", false, some (.litInt "1")⟩, ⟨[], "Two", false, some (.litInt "2")⟩,
            ⟨[], "Five", false, some (.litInt "5")⟩]⟩ =
      .ok ("public enum Foo : byte\n\x7b\n    One = 1,\n    Two = 2,\n    Five = 5,\n\x7d\n\n",
        witnessBuilder.add_known_type "Foo" "Foo") := by
  constructor
  · exact (C4_enum_discriminants witnessBuilder "" 0 "Foo" _ (by decide)).trans (by rfl)
  · exact (C4_enum_discriminants witnessBuilder "" 0 "Foo" _ (by decide)).trans (by rfl)

/-- C5: an enumeration whose representation attribute is the bare
`#[repr(C)]` marker always fails the pass with the hard
unsupported-construct error - whatever attributes follow and whatever
the variants are - while a fixed-width marker `#[repr(w)]` selects the
primitive table's managed type for `w` as the underlying type; non-repr
attributes (any attribute without a repr path identifier) are ignored
by this decision. -/
theorem C5_enum_repr_c_rejected (b : CSharpBuilder) (s : String) (i : Int) (ident : String)
    (variants : List VariantM) (others rest : List MetaAttr)
    (hothers : ∀ a ∈ others, reprIdent a = none) :
    write_enum b s i ⟨others ++ reprAttr "C" :: rest, ident, variants⟩ =
      .error (.unsupported
        "The size of a repr[C] enum is not specifically defined. Please use repr[u*] to define an actual size") ∧
    (∀ w sz, w ≠ "C" → convert_type_path b [.mk w .noneArgs] = .ok sz →
      (∀ v ∈ variants, v.has_fields = false) →
      write_enum b s i ⟨others ++ [reprAttr w], ident, variants⟩ = .ok (s
        ++ summary_text (extract_outer_docs (others ++ [reprAttr w])) i
        ++ indent_str i ++ "public enum " ++ ident ++ " : " ++ sz.csharp_name ++ "\n"
        ++ indent_str i ++ "\x7b\n"
        ++ joinList (variants.map fun v =>
            summary_text (extract_outer_docs v.attrs) (i + 1) ++ indent_str (i + 1) ++ v.ident
              ++ (match v.discriminant with
                  | some (.litInt d) => " = " ++ d
                  | some _ => ""
                  | none => "") ++ ",\n")
        ++ indent_str i ++ "\x7d\n" ++ "\n",
        b.add_known_type ident ident)) := by
  constructor
  · unfold write_enum enum_size_option
    rw [List.foldlM_append, enum_size_fold_skip b others none hothers, except_bind_ok,
      List.foldlM_cons]
    rfl
  · intro w sz hw hconv hf
    refine write_enum_eq b s i ⟨others ++ [reprAttr w], ident, variants⟩ sz ?_ hf
    unfold enum_size_option
    rw [List.foldlM_append, enum_size_fold_skip b others none hothers, except_bind_ok,
      List.foldlM_cons, enum_repr_step_width b none w sz hw hconv, except_bind_ok,
      List.foldlM_nil]
    rfl

/-- Witness for C5: `#[repr(C)]` alone errors; `#[repr(u16)]` selects
`ushort`. -/
theorem C5_enum_repr_c_rejected_witness :
    write_enum witnessBuilder "" 0
        ⟨[reprAttr "C"], "Foo", [⟨[], "One", false, none⟩]⟩ =
      .error (.unsupported
        "The size of a repr[C] enum is not specifically defined. Please use repr[u*] to define an actual size") ∧
    write_enum witnessBuilder "" 0
        ⟨[reprAttr "u16"], "Foo", [⟨[], "One", false, none⟩]⟩ =
      .ok ("public enum Foo : ushort\n\x7b\n    One,\n\x7d\n\n",
        witnessBuilder.add_known_type "Foo" "Foo") := by
  have h := C5_enum_repr_c_rejected witnessBuilder "" 0 "Foo"
    [⟨[], "One", false, none⟩] [] [] (by simp)
  refine ⟨h.1, ?_⟩
  exact (h.2 "u16" (.mk "ushort" "u16" []) (by decide) rfl (by decide)).trans (by rfl)

/-- Counterexample for C6 as stated: an enumeration declaration
without any width marker need not be skipped successfully - a bare
`#[repr(C)]` enum (no width marker) makes lowering return a hard
error, not success. -/
theorem C6_counterexample :
    write_enum witnessBuilder "" 0 ⟨[reprAttr "C"], "Foo", []⟩ =
      .error (.unsupported
        "The size of a repr[C] enum is not specifically defined. Please use repr[u*] to define an actual size") := by
  rfl

/-- C6 (amended): a record declaration none of whose attributes is a
repr marker with identifier `C`, and an enumeration declaration none
of whose attributes carries any repr path identifier at all (in
particular, no repr attribute), are silently skipped: lowering
succeeds, appends nothing to the output, and returns the builder -
hence the registry - completely unchanged. (The restriction on the
enumeration side is forced by `C6_counterexample`: an enum whose repr
identifier is `C` - not a width marker - errors instead of being
skipped, and a repr identifier that is neither a width nor `C` is
resolved through the registry rather than ignored.) -/
theorem C6_skip_amended (order : List String → List String) (b : CSharpBuilder)
    (s : String) (i : Int) :
    (∀ strct : ItemStruct, (∀ a ∈ strct.attrs, reprIdent a ≠ some "C") →
      write_struct order b s i strct = .ok (s, b)) ∧
    (∀ en : ItemEnum, (∀ a ∈ en.attrs, reprIdent a = none) →
      write_enum b s i en = .ok (s, b)) := by
  constructor
  · intro strct h
    have hrep : struct_found_c_repr strct.attrs = false := by
      unfold struct_found_c_repr
      rw [List.any_eq_false]
      intro a ha
      have ha' := h a ha
      unfold reprIdent at ha'
      cases hg : get_repr_attribute_value a with
      | none => simp
      | some val =>
        simp only [hg] at ha'
        simpa using ha'
    unfold write_struct
    rw [hrep]
    rfl
  · intro en h
    unfold write_enum
    rw [show enum_size_option b en.attrs = .ok none from enum_size_fold_skip b en.attrs none h,
      except_bind_ok]

/-- Witness for C6 (amended): an unattributed record and an
unattributed enumeration both lower to nothing, leaving text and
builder untouched. -/
theorem C6_skip_amended_witness :
    write_struct (fun l => l) witnessBuilder "" 0 ⟨[], "Foo", [], []⟩ =
      .ok ("", witnessBuilder) ∧
    write_enum witnessBuilder "" 0 ⟨[], "Foo", []⟩ = .ok ("", witnessBuilder) := by
  have h := C6_skip_amended (fun l => l) witnessBuilder "" 0
  exact ⟨h.1 ⟨[], "Foo", [], []⟩ (by simp), h.2 ⟨[], "Foo", []⟩ (by simp)⟩

/-- C10: a path whose last segment is `c_char` resolves, for every
builder (hence without consulting the registry) and any argument
shape, to managed `char` with remark `c_char`. -/
theorem C10_c_char_primitive (b : CSharpBuilder) (ss : List PathSeg) (args : PathArgsM) :
    convert_type_path b (ss ++ [.mk "c_char" args]) = .ok (.mk "char" "c_char" []) := by
  induction ss with
  | nil =>
    simp only [List.nil_append, convert_type_path]
    exact convert_last_segment_prim b _ args _ rfl
  | cons x xs ih =>
    cases xs with
    | nil =>
      simp only [List.cons_append, List.nil_append, convert_type_path]
      exact convert_last_segment_prim b _ args _ rfl
    | cons y ys =>
      simp only [List.cons_append, convert_type_path] at ih ⊢
      exact ih

/-- C7: a function is lowered if and only if it carries the
`extern "C"` marker. An untagged function contributes no output and no
error; for a tagged function the emitted `DllImport` annotation's
`EntryPoint` equals the declared name character for character, the
managed method name is `convert_naming name false` (first letter
uppercased, underscores removed with per-word capitalization), and
each collected parameter's emitted name is `convert_naming pname true`
(the parameter variant with a lowercased leading letter). -/
theorem C7_function_lowering (b : CSharpBuilder) (s : String) (i : Int) :
    (∀ f : ItemFn, is_extern_c f = false → write_function b s i f = .ok s) ∧
    (∀ (attrs : List MetaAttr) (name : String) (inputs : List FnArg)
        (outTy : Option RustType) (ps : List (String × String × String))
        (ret : TypeNameContainer),
      function_return_type b outTy = .ok ret →
      collect_parameters b inputs = .ok ps →
      write_function b s i ⟨attrs, some (some "C"), name, inputs, outTy⟩ = .ok (s
        ++ summary_text (extract_outer_docs attrs) i
        ++ joinList (ps.map fun p =>
            indent_str i ++ ("/// <param name=\"" ++ p.1 ++ "\">" ++ p.2.2 ++ "</param>") ++ "\n")
        ++ indent_str i ++ "/// <returns>" ++ ret.rust_name ++ "</returns>" ++ "\n"
        ++ indent_str i ++ ("[DllImport(\"" ++ b.dll_name
          ++ "\", CallingConvention = CallingConvention.Cdecl, EntryPoint=\""
          ++ name ++ "\")]") ++ "\n"
        ++ indent_str i ++ "internal static extern " ++ ret.stringify ++ " "
        ++ convert_naming name false ++ "("
        ++ String.intercalate ", " (ps.map fun p => p.2.1 ++ " " ++ p.1) ++ ");\n" ++ "\n")) ∧
    (∀ (pname : String) (ty : RustType) (rest : List FnArg) (c : TypeNameContainer),
      convert_type_name b ty = .ok c →
      collect_parameters b (.typed (.identPat pname) ty :: rest) =
        (collect_parameters b rest).map
          (fun l => (convert_naming pname true, c.stringify, c.rust_name) :: l)) := by
  refine ⟨?_, ?_, ?_⟩
  · intro f h
    unfold write_function
    rw [h]
    rfl
  · intro attrs name inputs outTy ps ret hret hps
    unfold write_function
    have hext : is_extern_c ⟨attrs, some (some "C"), name, inputs, outTy⟩ = true := rfl
    rw [hext]
    simp only [Bool.not_true, Bool.false_eq_true, if_false]
    rw [hret, except_bind_ok, hps, except_bind_ok, write_summary_eq,
      foldl_write_line_eq (fun p : String × String × String =>
        "/// <param name=\"" ++ p.1 ++ "\">" ++ p.2.2 ++ "</param>") i ps]
    simp only [write_line, String.append_assoc]
    rfl
  · intro pname ty rest c h
    simp only [collect_parameters, h, except_bind_ok]
    cases hrest : collect_parameters b rest <;> simp [hrest, Except.map]

/-- Witness for C7: the repo's `foo_bar_zet(foo_bar: u8)` example -
entry point `foo_bar_zet`, managed name `FooBarZet`, parameter
`fooBar`; and a function without the marker emits nothing. -/
theorem C7_function_lowering_witness :
    write_function witnessBuilder "" 0
        ⟨[], some (some "C"), "foo_bar_zet",
          [.typed (.identPat "foo_bar") (.path [.mk "u8" .noneArgs])], none⟩ =
      .ok ("/// <param name=\"fooBar\">u8</param>\n/// <returns>void</returns>\n[DllImport(\"foo\", CallingConvention = CallingConvention.Cdecl, EntryPoint=\"foo_bar_zet\")]\ninternal static extern void FooBarZet(byte fooBar);\n\n") ∧
    write_function witnessBuilder "" 0 ⟨[], none, "foo", [], none⟩ = .ok "" := by
  have h := C7_function_lowering witnessBuilder "" 0
  constructor
  · exact (h.2.1 [] "foo_bar_zet" [.typed (.identPat "foo_bar") (.path [.mk "u8" .noneArgs])]
      none [("fooBar", "byte", "u8")] (.mk "void" "void" []) rfl (by rfl)).trans (by rfl)
  · exact h.1 ⟨[], none, "foo", [], none⟩ rfl

/-- Looking up the key just registered finds the new identity
(last-writer-wins). -/
theorem get_known_type_add (conf : CSharpConfiguration) (name : String)
    (ns it : Option String) (rn : String) :
    get_known_type (add_known_type conf name ns it rn) name = some ⟨ns, it, rn⟩ := by
  simp [get_known_type, add_known_type]

/-- C8: a type alias whose target is a registry-known named type
registers the alias's own native name under the referenced identity's
namespace and enclosing type, with the simple name extended by the
rendered generic-argument suffix - so a later reference to the alias
resolved from the registering context yields the concrete instantiated
managed name, not the alias name. An alias whose target is not a path,
or whose path name is not registry-known, is silently skipped: no
output, no registration, no error. -/
theorem C8_type_alias (order : List String → List String) (b : CSharpBuilder)
    (s : String) (i : Int) :
    (∀ (alias_name : String) (elem : RustType),
      write_token order b s i (.typeItem ⟨alias_name, .ptr elem⟩) = .ok (s, b)) ∧
    (∀ (alias_name : String) (segs : List PathSeg) (tname : String),
      get_path_name segs = some tname → get_known_type b.conf tname = none →
      write_token order b s i (.typeItem ⟨alias_name, .path segs⟩) = .ok (s, b)) ∧
    (∀ (alias_name tname : String) (gargs : List (Option RustType)) (t : TypeIdentity)
        (rendered : String),
      get_known_type b.conf tname = some t →
      render_alias_generics b 0 gargs = .ok rendered →
      write_token order b s i
          (.typeItem ⟨alias_name, .path [.mk tname (.angle gargs)]⟩) =
        .ok (s, { b with conf := (add_known_type b.conf alias_name t.nspace t.inside_type
          (t.real_type_name ++ "<" ++ rendered ++ ">")) }) ∧
      (b.nspace = t.nspace → (b.type_name = t.inside_type ∨ t.inside_type = none) →
        resolve_known_type_name
            { b with conf := (add_known_type b.conf alias_name t.nspace t.inside_type
              (t.real_type_name ++ "<" ++ rendered ++ ">")) } alias_name =
          .ok (.mk (t.real_type_name ++ "<" ++ rendered ++ ">") alias_name []))) := by
  refine ⟨?_, ?_, ?_⟩
  · intro alias_name elem
    simp [write_token, write_type_alias, except_bind_ok]
  · intro alias_name segs tname hname hknown
    simp [write_token, write_type_alias, hname, hknown, except_bind_ok]
  · intro alias_name tname gargs t rendered hknown hrender
    constructor
    · simp [write_token, write_type_alias, get_path_name, PathSeg.ident, PathSeg.args,
        hknown, hrender, except_bind_ok]
    · intro hns henc
      have hg : get_known_type
          ({ b with conf := (add_known_type b.conf alias_name t.nspace t.inside_type
            (t.real_type_name ++ "<" ++ rendered ++ ">")) } : CSharpBuilder).conf alias_name =
          some ⟨t.nspace, t.inside_type, t.real_type_name ++ "<" ++ rendered ++ ">"⟩ :=
        get_known_type_add b.conf alias_name t.nspace t.inside_type _
      rw [resolve_known_type_name_eq _ alias_name _ hg]
      unfold qualified_name_spec
      rw [if_pos ⟨hns.symm, henc⟩]

/-- Registry for the alias witness: `TestStruct` registered under the
current context (namespace `foo`, wrapper `bar`). -/
def aliasConf : CSharpConfiguration :=
  { csharp_version := 9, out_type := none, generated_warning := "",
    known_types := [("TestStruct", ⟨some "foo", some "bar", "TestStruct"⟩)] }

/-- A pass over `aliasConf` in the same context. -/
def aliasBuilder : CSharpBuilder :=
  { dll_name := "foo", tokens := [], nspace := some "foo", type_name := some "bar",
    usings := [], conf := aliasConf }

/-- Witness for C8: `type Redefinition = TestStruct<u8>;` registers
`Redefinition ↦ (foo, bar, TestStruct<byte>)` and later resolution of
`Redefinition` yields `TestStruct<byte>`; an alias of an unknown type
is skipped. -/
theorem C8_type_alias_witness :
    write_token (fun l => l) aliasBuilder "" 0
        (.typeItem ⟨"Redefinition",
          .path [.mk "TestStruct" (.angle [some (.path [.mk "u8" .noneArgs])])]⟩) =
      .ok ("", { aliasBuilder with conf := (add_known_type aliasBuilder.conf "Redefinition"
        (some "foo") (some "bar") "TestStruct<byte>") }) ∧
    resolve_known_type_name
        { aliasBuilder with conf := (add_known_type aliasBuilder.conf "Redefinition"
          (some "foo") (some "bar") "TestStruct<byte>") } "Redefinition" =
      .ok (.mk "TestStruct<byte>" "Redefinition" []) ∧
    write_token (fun l => l) aliasBuilder "" 0
        (.typeItem ⟨"Alias2", .path [.mk "Unknown" .noneArgs]⟩) =
      .ok ("", aliasBuilder) := by
  have h := C8_type_alias (fun l => l) aliasBuilder "" 0
  have h3 := h.2.2 "Redefinition" "TestStruct" [some (.path [.mk "u8" .noneArgs])]
    ⟨some "foo", some "bar", "TestStruct"⟩ "byte" rfl rfl
  refine ⟨h3.1.trans (by rfl), ?_, h.2.1 "Alias2" [.mk "Unknown" .noneArgs] "Unknown" rfl rfl⟩
  exact (h3.2 rfl (Or.inl rfl)).trans (by rfl)

mutual
/-- Declarations whose records all declare at most one type parameter
(after the set's deduplication): the region where hash-set iteration
order cannot influence the output. -/
def small_generics_item : Item → Bool
  | .structItem strct => decide ((struct_generics strct.generic_params).length ≤ 1)
  | .modItem content =>
    match content with
    | none => true
    | some items => small_generics_items items
  | _ => true
termination_by structural it => it

/-- `small_generics_item` over a declaration list. -/
def small_generics_items : List Item → Bool
  | [] => true
  | it :: rest => small_generics_item it && small_generics_items rest
termination_by structural l => l
end

/-- A permutation-valued order function is the identity on lists of at
most one element. -/
theorem order_eq_of_perm {o : List String → List String} (ho : ∀ l, (o l).Perm l) :
    ∀ l : List String, l.length ≤ 1 → o l = l := by
  intro l h
  match l, h with
  | [], _ => exact (ho []).eq_nil
  | [a], _ => exact (List.perm_singleton).mp (ho [a])

/-- `write_struct` emits the same text for any two permutation-valued
iteration orders when the struct declares at most one type parameter. -/
theorem write_struct_order_indep (o1 o2 : List String → List String)
    (h1 : ∀ l, (o1 l).Perm l) (h2 : ∀ l, (o2 l).Perm l) (b : CSharpBuilder) (s : String)
    (i : Int) (strct : ItemStruct)
    (hsmall : (struct_generics strct.generic_params).length ≤ 1) :
    write_struct o1 b s i strct = write_struct o2 b s i strct := by
  have e : o1 (struct_generics strct.generic_params) = o2 (struct_generics strct.generic_params) := by
    rw [order_eq_of_perm h1 _ hsmall, order_eq_of_perm h2 _ hsmall]
  simp only [write_struct, e]

mutual
/-- Token dispatch is independent of the hash-set iteration order on
declarations whose records declare at most one type parameter. -/
theorem write_token_order_indep (o1 o2 : List String → List String)
    (h1 : ∀ l, (o1 l).Perm l) (h2 : ∀ l, (o2 l).Perm l) :
    ∀ it : Item, small_generics_item it = true → ∀ (b : CSharpBuilder) (s : String) (i : Int),
      write_token o1 b s i it = write_token o2 b s i it
  | .structItem strct, h, b, s, i => by
    simp only [write_token]
    exact write_struct_order_indep o1 o2 h1 h2 b s i strct
      (by simpa [small_generics_item] using h)
  | .modItem none, _, b, s, i => by simp only [write_token]
  | .modItem (some items), h, b, s, i => by
    simp only [write_token]
    exact write_tokens_order_indep o1 o2 h1 h2 items
      (by simpa [small_generics_item] using h) b s i
  | .constItem, _, b, s, i => rfl
  | .enumItem en, _, b, s, i => by simp only [write_token]
  | .externCrate, _, b, s, i => rfl
  | .fnItem f, _, b, s, i => by simp only [write_token]
  | .foreignMod, _, b, s, i => rfl
  | .implItem, _, b, s, i => rfl
  | .macItem, _, b, s, i => rfl
  | .mac2Item, _, b, s, i => rfl
  | .staticItem, _, b, s, i => rfl
  | .traitItem, _, b, s, i => rfl
  | .traitAliasItem, _, b, s, i => rfl
  | .typeItem t, _, b, s, i => by simp only [write_token]
  | .unionItem, _, b, s, i => rfl
  | .useItem, _, b, s, i => rfl
  | .verbatimItem, _, b, s, i => rfl
termination_by structural it => it

/-- Sequential token processing is independent of the hash-set
iteration order under the same restriction. -/
theorem write_tokens_order_indep (o1 o2 : List String → List String)
    (h1 : ∀ l, (o1 l).Perm l) (h2 : ∀ l, (o2 l).Perm l) :
    ∀ l : List Item, small_generics_items l = true → ∀ (b : CSharpBuilder) (s : String) (i : Int),
      write_tokens o1 b s i l = write_tokens o2 b s i l
  | [], _, b, s, i => rfl
  | it :: rest, h, b, s, i => by
    have hpair := Bool.and_eq_true_iff.mp (by simpa [small_generics_items] using h)
    simp only [write_tokens]
    rw [write_token_order_indep o1 o2 h1 h2 it hpair.1 b s i]
    cases hres : write_token o2 b s i it with
    | error e => rfl
    | ok p =>
      simp only [except_bind_ok]
      exact write_tokens_order_indep o1 o2 h1 h2 rest hpair.2 p.2 p.1 i
termination_by structural l => l
end

/-- A `#[repr(C)]` record declaring two type parameters and no
fields. -/
def twoParamStruct : Item :=
  .structItem ⟨[reprAttr "C"], "Pair", [.tyParam "T", .tyParam "U"], []⟩

/-- A build whose only declaration is `twoParamStruct`. -/
def c9Builder : CSharpBuilder :=
  { dll_name := "foo", tokens := [twoParamStruct], nspace := none, type_name := none,
    usings := [], conf := ⟨9, none, "", []⟩ }

/-- Counterexample for C9 as stated: the emitted struct header depends
on the iteration order of the type-parameter hash set. Reversal is a
permutation - hence a possible `HashSet` iteration order - yet the two
builds of the same input and configuration produce different output
strings (`<T, U>` versus `<U, T>`), so building is not deterministic
for records with more than one type parameter. -/
theorem C9_counterexample :
    (∀ l : List String, (List.reverse l).Perm l) ∧
    build_csharp (fun l => l) c9Builder ≠ build_csharp (fun l => List.reverse l) c9Builder := by
  refine ⟨fun l => List.reverse_perm l, fun h => ?_⟩
  have h2 := congrArg
    (fun r : Except Error (String × CSharpBuilder) =>
      match r with
      | .ok p => p.1
      | .error _ => "") h
  exact absurd h2 (by decide)

/-- C9 (amended): building is deterministic up to the hash-set
iteration order, and fully deterministic whenever every record in the
input declares at most one type parameter: any two permutation-valued
iteration orders - the possible behaviours of the source's `HashSet` -
produce identical output strings. With more than one type parameter
the rendered parameter order can differ between runs
(`C9_counterexample`). -/
theorem C9_determinism_amended (o1 o2 : List String → List String)
    (h1 : ∀ l, (o1 l).Perm l) (h2 : ∀ l, (o2 l).Perm l) (b : CSharpBuilder)
    (hsmall : small_generics_items b.tokens = true) :
    build_csharp o1 b = build_csharp o2 b := by
  unfold build_csharp
  simp only [write_tokens_order_indep o1 o2 h1 h2 b.tokens hsmall]

/-- A build with a single-type-parameter record. -/
def c9OneBuilder : CSharpBuilder :=
  { dll_name := "foo",
    tokens := [.structItem ⟨[reprAttr "C"], "Box", [.tyParam "T"], []⟩],
    nspace := none, type_name := none, usings := [], conf := ⟨9, none, "", []⟩ }

/-- Witness for C9 (amended): with one type parameter, the identity
and reversal orders build identical output. -/
theorem C9_determinism_amended_witness :
    build_csharp (fun l => l) c9OneBuilder = build_csharp (fun l => List.reverse l) c9OneBuilder := by
  exact C9_determinism_amended (fun l => l) (fun l => List.reverse l)
    (fun l => List.Perm.refl l) (fun l => List.reverse_perm l) c9OneBuilder (by decide)

end CsBind
